import Mathlib

/-!
Verification development for the gcode-core block package.

The definitions below are a shallow embedding of `src/block/block.go`
(`Parse`, `New`, `ToLine*`, `CalculateChecksum`, `UpdateChecksum`,
`VerifyChecksum`, `prepareSourceToParse` and friends).  The gcode factory,
the word/string address validation and the checksum hash engine live in
packages that are not part of the sources; those are modelled from the
specification (doc comments say so explicitly).  Strings are modelled as
sequences of characters; this coincides with Go's byte handling on ASCII
input, which covers every input exercised here.
-/

/-- Errors surfaced by construction, validation and parsing.  They model the
error taxonomy of the package (word validation, quoted-string validation,
line-number conversion, builder nil rejection, missing checksum). -/
inductive Err where
  | wordInvalid (w : Char)
  | strTooShort (s : String)
  | strInvalidChars (s : String)
  | strQuote (s : String)
  | lineNumberCast
  | nilArg
  | commandRequired
  | checksumMissing
deriving DecidableEq

/-- Exact decimal number `num / 10 ^ exp10`.  Float32 addresses are
modelled with this representation: every float value in the repository's
vectors is an exact short decimal, so no binary rounding is involved, and
all arithmetic stays on integers, which the kernel evaluates. -/
structure DecFloat where
  num : Int
  exp10 : Nat
deriving DecidableEq

/-- Typed address payload of a gcode: the four closed variants. -/
inductive Address where
  | int32 (v : Int)
  | uint32 (v : Nat)
  | float32 (q : DecFloat)
  | str (s : String)
deriving DecidableEq

/-- A gcode expression: a word letter plus an optional typed address.
`address = none` models the unaddressable variant. -/
structure Gcode where
  word : Char
  address : Option Address
deriving DecidableEq

/-- Kind of hash engine owned by a block.  `xorBytes` is the repository's
reference checksum engine (its test vector requires XOR); `sumMod256` is the
engine as the specification describes it ("sum-of-bytes-mod-256"). -/
inductive EngineKind where
  | sumMod256
  | xorBytes
deriving DecidableEq

/-- Modelled from the spec: the byte-accumulating hash engine (the
`checksum` package is absent from the sources).  It carries a mutable
accumulator, reset at the start of every checksum computation. -/
structure Engine where
  kind : EngineKind
  acc : Nat
deriving DecidableEq

/-- One accumulation step of the hash engine on a single byte. -/
def EngineKind.step : EngineKind → Nat → Nat → Nat
  | .sumMod256, a, b => (a + b) % 256
  | .xorBytes, a, b => Nat.xor a b

/-- Byte value of a character; exact for the ASCII range used throughout. -/
def byteVal (c : Char) : Nat := c.toNat % 256

/-- Reset the engine accumulator (Go `hash.Reset`). -/
def Engine.reset (e : Engine) : Engine := { e with acc := 0 }

/-- Feed the bytes of a string to the engine (Go `hash.Write`).  The
reference engine never fails, so this is total. -/
def Engine.writeStr (e : Engine) (s : String) : Engine :=
  { e with acc := s.data.foldl (fun a c => e.kind.step a (byteVal c)) e.acc }

/-- First byte of the digest (Go `hash.Sum(nil)[0]`). -/
def Engine.digestFirstByte (e : Engine) : Nat := e.acc % 256

/-- Modelled from the spec: word validation of the absent `word` package.
Valid set is the capital letters together with the asterisk. -/
def wordValid (c : Char) : Bool := ('A' ≤ c ∧ c ≤ 'Z') ∨ c = '*'

/-- States of the quoted-string validation machine of the spec. -/
inductive QState where
  | start
  | inQuote
  | sawQuote

/-- Control characters rejected inside a quoted string (tab, CR, LF). -/
def isCtl (c : Char) : Bool := c = '\t' ∨ c = '\n' ∨ c = '\r'

/-- Modelled from the spec: the 4-state quoted-string machine of the absent
`address` package.  `start` expects the opening quote, `inQuote` consumes
content, `sawQuote` either closes at end of input or resumes on a doubled
quote. -/
def runQuote (s : String) : List Char → QState → Except Err Unit
  | [], .start => .error (.strQuote s)
  | c :: rest, .start =>
      if c = '"' then runQuote s rest .inQuote else .error (.strQuote s)
  | [], .inQuote => .error (.strQuote s)
  | c :: rest, .inQuote =>
      if c = '"' then runQuote s rest .sawQuote
      else if isCtl c then .error (.strInvalidChars s)
      else runQuote s rest .inQuote
  | [], .sawQuote => .ok ()
  | c :: rest, .sawQuote =>
      if c = '"' then runQuote s rest .inQuote else .error (.strQuote s)

/-- Modelled from the spec: string-address validation of the absent
`address` package.  The empty text and the bare pair of quotes are rejected
as too short (the spec's vectors demand both); longer texts run the quoting
machine. -/
def validateStringAddress (s : String) : Except Err Unit :=
  if s.length < 3 then .error (.strTooShort s)
  else runQuote s s.data .start

/-- Abstract constructor surface producing the five gcode shapes (the
`GcoderFactory` interface). -/
structure GcoderFactory where
  newUnaddressable : Char → Except Err Gcode
  newInt32 : Char → Int → Except Err Gcode
  newUint32 : Char → Nat → Except Err Gcode
  newFloat32 : Char → DecFloat → Except Err Gcode
  newString : Char → String → Except Err Gcode

/-- Modelled from the spec: the concrete default factory of the absent
`gcodefactory` package.  Every constructor validates the word; the string
constructor additionally validates the quoted-string address. -/
def defaultGcodeFactory : GcoderFactory where
  newUnaddressable w :=
    if wordValid w then .ok ⟨w, none⟩ else .error (.wordInvalid w)
  newInt32 w v :=
    if wordValid w then .ok ⟨w, some (.int32 v)⟩ else .error (.wordInvalid w)
  newUint32 w v :=
    if wordValid w then .ok ⟨w, some (.uint32 v)⟩ else .error (.wordInvalid w)
  newFloat32 w q :=
    if wordValid w then .ok ⟨w, some (.float32 q)⟩ else .error (.wordInvalid w)
  newString w s :=
    if wordValid w then
      match validateStringAddress s with
      | .ok _ => .ok ⟨w, some (.str s)⟩
      | .error e => .error e
    else .error (.wordInvalid w)

/-- Numeric value of a nonempty digit list, most significant first. -/
def digitsNat (cs : List Char) : Nat :=
  cs.foldl (fun a c => 10 * a + (c.toNat - 48)) 0

/-- Decimal value of a string of digits (helper used to state claims). -/
def decimalVal (s : String) : Nat := digitsNat s.data

/-- Split an optional leading sign, returning the sign and the rest. -/
def splitSign (cs : List Char) : Int × List Char :=
  match cs with
  | [] => (1, [])
  | c :: r => if c = '+' then (1, r) else if c = '-' then (-1, r) else (1, cs)

/-- Model of Go `strconv.ParseInt(s, 10, 32)`: optional sign, at least one
decimal digit, nothing else, and the signed value must fit in 32 bits. -/
def parseInt32 (s : String) : Option Int :=
  let (sign, rest) := splitSign s.data
  if rest = [] then none
  else if rest.all Char.isDigit then
    let v : Int := sign * digitsNat rest
    if -2147483648 ≤ v ∧ v ≤ 2147483647 then some v else none
  else none

/-- Model of the decimal forms accepted by Go `strconv.ParseFloat(s, 32)`:
optional sign, then digits with an optional fraction part (`12`, `12.`,
`12.3`, `.5`).  Exponents, hex floats and inf/nan spellings are not
modelled; no input of the repository uses them.  The value is returned as
the exact decimal it denotes. -/
def parseFloat32 (s : String) : Option DecFloat :=
  let (sg, rest) := splitSign s.data
  let intPart := rest.takeWhile Char.isDigit
  let rest2 := rest.dropWhile Char.isDigit
  match rest2 with
  | [] =>
      if intPart = [] then none
      else some ⟨sg * digitsNat intPart, 0⟩
  | c :: frac =>
      if c = '.' ∧ frac.all Char.isDigit ∧ (intPart ≠ [] ∨ frac ≠ []) then
        some ⟨sg * (digitsNat intPart * 10 ^ frac.length + digitsNat frac),
              frac.length⟩
      else none

/-- Tenths digit rounding of a nonnegative decimal: the number of tenths
in `m / 10 ^ e`, rounded half up (the reference vectors hit no tie, so the
half-even tie rule of Go's formatting is indistinguishable here). -/
def roundTenths (m : Nat) (e : Nat) : Nat :=
  (m * 10 + 10 ^ e / 2) / 10 ^ e

/-- Modelled from the spec: float address formatting of the absent
`address` package always renders exactly one fractional digit. -/
def fmtFloat (q : DecFloat) : String :=
  if q.num < 0 then
    let t := roundTenths (-q.num).toNat q.exp10
    "-" ++ toString (t / 10) ++ "." ++ toString (t % 10)
  else
    let t := roundTenths q.num.toNat q.exp10
    toString (t / 10) ++ "." ++ toString (t % 10)

/-- Canonical text of an address (Go `Address.String`). -/
def Address.fmt : Address → String
  | .int32 v => toString v
  | .uint32 v => toString v
  | .float32 q => fmtFloat q
  | .str s => s

/-- Text of a gcode: the word letter followed by the address text
(Go `Gcode.String`). -/
def Gcode.toString (g : Gcode) : String :=
  String.singleton g.word ++
    (match g.address with
     | some a => a.fmt
     | none => "")

/-- Structural comparison of two gcodes: word and address equality
(the `Compare` capability of addressable gcodes). -/
def Gcode.compare (a b : Gcode) : Bool := decide (a = b)

/-- The block aggregate of `src/block/block.go`: optional line number,
command (nil-able in Go, hence optional here), ordered parameters, optional
checksum, comment text, an optional hash engine and an optional factory
(both are nil-able interface fields in Go). -/
structure Block where
  lineNumber : Option Gcode
  command : Option Gcode
  parameters : List Gcode
  checksum : Option Gcode
  comment : String
  hashEngine : Option Engine
  factory : Option GcoderFactory

/-- The block separator constant (`BLOCK_SEPARATOR`). -/
def BLOCK_SEPARATOR : String := " "

/-- Go `Block.ToLine`: append the line number, the command and each
parameter when present and join with the separator. -/
def Block.toLine (b : Block) : String :=
  let values :=
    (match b.lineNumber with
     | some ln => [ln.toString]
     | none => []) ++
    (match b.command with
     | some c => [c.toString]
     | none => []) ++
    b.parameters.map Gcode.toString
  String.intercalate BLOCK_SEPARATOR values

/-- Go `Block.ToLineWithCheck`: `ToLine` plus the checksum when stored. -/
def Block.toLineWithCheck (b : Block) : String :=
  match b.checksum with
  | some c => String.intercalate BLOCK_SEPARATOR [b.toLine, c.toString]
  | none => b.toLine

/-- Go `Block.ToLineWithCheckAndComments`: `ToLineWithCheck` plus the
comment when it is nonempty. -/
def Block.toLineWithCheckAndComments (b : Block) : String :=
  if b.comment.length > 0 then
    String.intercalate BLOCK_SEPARATOR [b.toLineWithCheck, b.comment]
  else b.toLineWithCheck

/-- Go `Block.String`: alias of `ToLineWithCheckAndComments`. -/
def Block.string (b : Block) : String := b.toLineWithCheckAndComments

/-- Outcome of a Go method or function that may return a value, return an
error, or abort through a runtime panic. -/
inductive Res (α : Type) where
  | ok (a : α) : Res α
  | err (e : Err) : Res α
  | panic : Res α

/-- Go `Block.CalculateChecksum`: reset the owned hash engine, feed it the
bytes of `ToLine`, take the first digest byte and wrap it as an unsigned
asterisk-keyed gcode through the owned factory.  A nil engine or a nil
factory dereference is a runtime panic.  The Write-error branch of the Go
code is unreachable for the modelled engine, which never fails. -/
def Block.calculateChecksum (b : Block) : Res (Gcode × Block) :=
  match b.hashEngine with
  | none => .panic
  | some e =>
    let e1 := (e.reset).writeStr b.toLine
    let b1 : Block := { b with hashEngine := some e1 }
    match b.factory with
    | none => .panic
    | some f =>
      match f.newUint32 '*' e1.digestFirstByte with
      | .ok g => .ok (g, b1)
      | .error er => .err er

/-- Go `Block.UpdateChecksum`: recompute and store the checksum; on error
the stored checksum is left untouched. -/
def Block.updateChecksum (b : Block) : Res Block :=
  match b.calculateChecksum with
  | .ok (g, b1) => .ok { b1 with checksum := some g }
  | .err e => .err e
  | .panic => .panic

/-- Go `Block.VerifyChecksum`: error when no checksum is stored, otherwise
recompute and compare word and address against the stored checksum. -/
def Block.verifyChecksum (b : Block) : Res (Bool × Block) :=
  match b.checksum with
  | none => .err .checksumMissing
  | some stored =>
    match b.calculateChecksum with
    | .ok (g, b1) => .ok (stored.compare g, b1)
    | .err e => .err e
    | .panic => .panic

/-- Modelled from the spec: the builder's optional setter actions (the
`BlockConfigurer` types are absent from the sources; the private setters in
`block.go` show the nil-rejecting pattern).  Each setter carries the Go
argument, nil-able where the Go type is. -/
inductive BlockOption where
  | setLineNumber (g : Option Gcode)
  | setParameters (ps : Option (List Gcode))
  | setChecksum (g : Option Gcode)
  | setComment (s : String)
  | setHash (e : Option Engine)
  | setFactory (f : Option GcoderFactory)

/-- Modelled from the spec: apply one builder action; a nil argument is
rejected immediately. -/
def applyOption (b : Block) : BlockOption → Except Err Block
  | .setLineNumber none => .error .nilArg
  | .setLineNumber (some g) => .ok { b with lineNumber := some g }
  | .setParameters none => .error .nilArg
  | .setParameters (some ps) => .ok { b with parameters := ps }
  | .setChecksum none => .error .nilArg
  | .setChecksum (some g) => .ok { b with checksum := some g }
  | .setComment s => .ok { b with comment := s }
  | .setHash none => .error .nilArg
  | .setHash (some e) => .ok { b with hashEngine := some e }
  | .setFactory none => .error .nilArg
  | .setFactory (some f) => .ok { b with factory := some f }

/-- Go `New`: the command is required; the staged actions are applied in
registration order to one fresh block, and any failure aborts the whole
construction. -/
def New (command : Option Gcode) (options : List BlockOption) :
    Except Err Block :=
  match command with
  | none => .error .commandRequired
  | some cmd =>
      options.foldlM applyOption
        { lineNumber := none, command := some cmd, parameters := [],
          checksum := none, comment := "", hashEngine := none,
          factory := none }

/-- Whitespace class of Go's regexp escape used by
`removeDuplicateSpaces` (tab, newline, form feed, carriage return,
space). -/
def isReSpace (c : Char) : Bool :=
  c = '\t' ∨ c = '\n' ∨ c = '\x0c' ∨ c = '\r' ∨ c = ' '

/-- Recursion core of `collapseWS`.  Every recursive call consumes at
least one character, so a fuel equal to the character count is never
exhausted; the zero-fuel branch only makes the recursion structural so
that concrete runs reduce inside the kernel. -/
def collapseWSGo : Nat → List Char → List Char
  | _, [] => []
  | _, [c] => [c]
  | 0, l => l
  | fuel + 1, c :: d :: rest =>
      if isReSpace c ∧ isReSpace d then
        ' ' :: collapseWSGo fuel ((d :: rest).dropWhile isReSpace)
      else c :: collapseWSGo fuel (d :: rest)

/-- Go `removeDuplicateSpaces`: every run of two or more whitespace
characters collapses to a single space; single whitespace characters are
left alone. -/
def collapseWS (cs : List Char) : List Char := collapseWSGo cs.length cs

/-- Go `removeSpecialChars`: newline, tab and carriage return become a
space. -/
def removeSpecialChars (cs : List Char) : List Char :=
  cs.map (fun c => if c = '\n' ∨ c = '\t' ∨ c = '\r' then ' ' else c)

/-- Whitespace trimmed by Go `strings.TrimSpace` (ASCII portion). -/
def isGoSpace (c : Char) : Bool :=
  c = ' ' ∨ c = '\t' ∨ c = '\n' ∨ c = '\x0b' ∨ c = '\x0c' ∨ c = '\r'

/-- Go `strings.TrimSpace` on the character list. -/
def trimSpace (cs : List Char) : List Char :=
  ((cs.dropWhile isGoSpace).reverse.dropWhile isGoSpace).reverse

/-- ASCII uppercase map (Go `strings.ToUpper` on the inputs used here). -/
def asciiUpper (cs : List Char) : List Char :=
  cs.map (fun c => if 'a' ≤ c ∧ c ≤ 'z' then Char.ofNat (c.toNat - 32) else c)

/-- Go `prepareSourceToParse`: trim, uppercase, collapse duplicate
whitespace, replace special characters with spaces — in that order. -/
def prepareSourceToParse (s : String) : String :=
  String.mk (removeSpecialChars (collapseWS (asciiUpper (trimSpace s.data))))

/-- Per-token body of Go `Parse`: split the token into word and remainder;
a nonempty remainder is type-sniffed by trying the int32 parse, then the
float32 parse, then the quoted-string constructor — the first success wins;
an empty remainder produces the unaddressable gcode. -/
def parseToken (f : GcoderFactory) (pword : Char) (paddress : String) :
    Except Err Gcode :=
  if paddress.length > 0 then
    match parseInt32 paddress with
    | some v => f.newInt32 pword v
    | none =>
      match parseFloat32 paddress with
      | some q => f.newFloat32 pword q
      | none => f.newString pword paddress
  else f.newUnaddressable pword

/-- Recursion core of `parseLoop`.  Every iteration of the Go loop drops
at least one character from the working string, so a fuel equal to the
character count is never exhausted; the zero-fuel branch only makes the
recursion structural so that concrete runs reduce inside the kernel. -/
def parseLoopGo (f : GcoderFactory) :
    Nat → List Char → List Gcode → Except Err (List Gcode)
  | _, [], acc => .ok acc
  | 0, _, acc => .ok acc
  | fuel + 1, pblock, acc =>
    match pblock.findIdx? (· = ' ') with
    | some 0 => parseLoopGo f fuel (pblock.drop 1) acc
    | some (k + 1) =>
      let pgcode := pblock.take (k + 1)
      match parseToken f (pgcode.headD ' ') (String.mk pgcode.tail) with
      | .error e => .error e
      | .ok g => parseLoopGo f fuel (pblock.drop (k + 1)) (acc ++ [g])
    | none =>
      match parseToken f (pblock.headD ' ') (String.mk pblock.tail) with
      | .error e => .error e
      | .ok g => .ok (acc ++ [g])

/-- The tokenizing loop of Go `Parse`: find the next space, skip leading
separators, cut the token, sniff it, and continue with the remainder; a
factory failure aborts the parse. -/
def parseLoop (f : GcoderFactory) (pblock : List Char) (acc : List Gcode) :
    Except Err (List Gcode) :=
  parseLoopGo f pblock.length pblock acc

/-- Unsigned 32-bit reinterpretation of a signed value
(Go `uint32(int32(v))`). -/
def uint32OfInt32 (v : Int) : Nat := (v % 4294967296).toNat

/-- The classification tail of Go `Parse`: an empty gcode list hits the
unguarded `gcodes[0]` index and panics; a first token keyed `N` must be the
int32-addressable shape and is re-wrapped unsigned as the line number (the
factory error of the re-wrap is discarded, as in the source), the next
token becoming the command; otherwise the first token is the command and
the rest are the parameters. -/
def classify (gcodes : List Gcode) (engine : Option Engine)
    (f : GcoderFactory) : Res Block :=
  match gcodes with
  | [] => .panic
  | [g] =>
    if g.word = 'N' then
      match g.address with
      | some (.int32 v) =>
        let ln : Option Gcode :=
          match f.newUint32 'N' (uint32OfInt32 v) with
          | .ok x => some x
          | .error _ => none
        .ok { lineNumber := ln, command := none, parameters := [],
              checksum := none, comment := "", hashEngine := engine,
              factory := some f }
      | _ => .err .lineNumberCast
    else
      .ok { lineNumber := none, command := some g, parameters := [],
            checksum := none, comment := "", hashEngine := engine,
            factory := some f }
  | g :: g2 :: rest =>
    if g.word = 'N' then
      match g.address with
      | some (.int32 v) =>
        let ln : Option Gcode :=
          match f.newUint32 'N' (uint32OfInt32 v) with
          | .ok x => some x
          | .error _ => none
        .ok { lineNumber := ln, command := some g2, parameters := rest,
              checksum := none, comment := "", hashEngine := engine,
              factory := some f }
      | _ => .err .lineNumberCast
    else
      .ok { lineNumber := none, command := some g, parameters := g2 :: rest,
            checksum := none, comment := "", hashEngine := engine,
            factory := some f }

/-- Go `Parse`: normalize the source line, substitute the default factory
for a nil one, tokenize and sniff, then classify into a block. -/
def parseBlock (s : String) (engine : Option Engine)
    (factory : Option GcoderFactory) : Res Block :=
  let pblock := prepareSourceToParse s
  let f := factory.getD defaultGcodeFactory
  match parseLoop f pblock.data [] with
  | .error e => .err e
  | .ok gcodes => classify gcodes engine f

/-- Block carried by an `ok` outcome, if any (projection helper for
stating concrete results). -/
def resBlock : Res Block → Option Block
  | .ok b => some b
  | _ => none

/-- Unsigned checksum value computed by `calculateChecksum` on the block of
an `ok` parse outcome, if everything succeeds (projection helper). -/
def calcValue (r : Res Block) : Option Nat :=
  match r with
  | .ok b =>
    match b.calculateChecksum with
    | .ok (g, _) =>
      match g.address with
      | some (.uint32 v) => some v
      | _ => none
    | _ => none
  | _ => none

/-- Concrete block used to instantiate hypothesis-bearing theorems: command
`G1`, stored checksum `*85`, the reference XOR engine and the default
factory. -/
def sampleBlock : Block :=
  { lineNumber := none, command := some ⟨'G', some (.int32 1)⟩,
    parameters := [], checksum := some ⟨'*', some (.uint32 85)⟩,
    comment := "", hashEngine := some ⟨.xorBytes, 0⟩,
    factory := some defaultGcodeFactory }

/-- The value of `sampleBlock` after one `updateChecksum`: the digest of
its line `G1` is 118, stored both in the engine accumulator and as the
checksum gcode. -/
def sampleBlockUpd : Block :=
  { sampleBlock with
    hashEngine := some ⟨.xorBytes, 118⟩,
    checksum := some ⟨'*', some (.uint32 118)⟩ }

/-- The block that `parseBlock "N4"` produces: line number `N4`, no
command, no parameters, no checksum. -/
def blockN4 : Block :=
  { lineNumber := some ⟨'N', some (.uint32 4)⟩, command := none,
    parameters := [], checksum := none, comment := "", hashEngine := none,
    factory := some defaultGcodeFactory }

/-- A nonempty string has positive length. -/
theorem strLength_pos_of_ne (s : String) (h : s ≠ "") : s.length > 0 := by
  obtain ⟨l⟩ := s
  cases l with
  | nil => exact absurd rfl h
  | cons c cs => simp [String.length]

/-- A nonempty string has a nonempty character list. -/
theorem strData_ne_nil_of_ne (s : String) (h : s ≠ "") : s.data ≠ [] := by
  obtain ⟨l⟩ := s
  cases l with
  | nil => exact absurd rfl h
  | cons c cs => simp

/-- Joining two strings with the block separator is plain concatenation
around one space. -/
theorem intercalate_pair (a b : String) :
    String.intercalate " " [a, b] = a ++ " " ++ b := by
  simp [String.intercalate, String.intercalate.go]

/-- The default factory accepts the asterisk word for unsigned values. -/
theorem newUint32_star (v : Nat) :
    defaultGcodeFactory.newUint32 '*' v =
      Except.ok ⟨'*', some (.uint32 v)⟩ := rfl

/-- The default factory accepts the letter `N` for unsigned values. -/
theorem newUint32_N (v : Nat) :
    defaultGcodeFactory.newUint32 'N' v =
      Except.ok ⟨'N', some (.uint32 v)⟩ := rfl

/-- Shape of `calculateChecksum` once the engine and the factory are
known: reset, write the canonical line, wrap the first digest byte. -/
theorem calc_eq (b : Block) (e : Engine) (f : GcoderFactory)
    (he : b.hashEngine = some e) (hf : b.factory = some f) :
    b.calculateChecksum =
      (match f.newUint32 '*' ((e.reset.writeStr b.toLine).digestFirstByte) with
       | .ok g =>
          Res.ok (g, { b with hashEngine := some (e.reset.writeStr b.toLine) })
       | .error er => Res.err er) := by
  unfold Block.calculateChecksum
  rw [he, hf]

/-- The unsigned 32-bit reinterpretation adds `2 ^ 32` exactly to the
negative in-range values. -/
theorem uint32OfInt32_eq (v : Int) (h1 : -2147483648 ≤ v)
    (h2 : v ≤ 2147483647) :
    uint32OfInt32 v = (if v < 0 then v + 4294967296 else v).toNat := by
  unfold uint32OfInt32
  split <;> omega

/-- C5: on the empty line (and likewise on any all-whitespace line) the
normalized source yields no tokens, and the classification step of `Parse`
evaluates `gcodes[0]` on an empty slice — a runtime panic, not a returned
block or error.  This theorem exhibits the abort the specification
forbids. -/
theorem parse_empty_line_panics : parseBlock "" none none = Res.panic := rfl

/-- C10: `Parse` called with a nil factory behaves exactly as `Parse`
called with the default internal factory, for every input line and every
engine: the nil argument is silently substituted. -/
theorem parse_nil_factory_uses_default (s : String) (e : Option Engine) :
    parseBlock s e none = parseBlock s e (some defaultGcodeFactory) := rfl

/-- C3 counterexample: parsing `"N4 G92 E0*67 ;comentario"` produces no
block at all, contradicting the claimed success with parameters `[E0]`. -/
theorem parse_checksum_comment_line_no_block :
    resBlock (parseBlock "N4 G92 E0*67 ;comentario" none none) = none := rfl

/-- C3 amended: parsing `"N4 G92 E0*67 ;comentario"` fails with a
quoted-string error on the token `E0*67`, whose remainder `0*67` is not an
int32, not a float32, and lacks the opening quote demanded by the string
grammar; no block (and hence no `ToLine`) is produced. -/
theorem parse_checksum_comment_line_errors :
    parseBlock "N4 G92 E0*67 ;comentario" none none =
      Res.err (Err.strQuote "0*67") := rfl

/-- C4 counterexample: parsing the line `"N4"` — a single line-number
token — succeeds and returns a block whose command is nil. -/
theorem parse_single_lineNumber_nil_command :
    (resBlock (parseBlock "N4" none none)).map (fun b => b.command) =
      some none := rfl

/-- C2 counterexample: with the sum-of-bytes-mod-256 engine the claim's
reference vector fails — the block parsed from
`"N7 G1 X2.0 Y2.0 F3000.0"` has checksum value 181, not 85. -/
theorem checksum_sum_engine_not_85 :
    calcValue (parseBlock "N7 G1 X2.0 Y2.0 F3000.0"
        (some ⟨.sumMod256, 0⟩) none) = some 181 ∧
    calcValue (parseBlock "N7 G1 X2.0 Y2.0 F3000.0"
        (some ⟨.sumMod256, 0⟩) none) ≠ some 85 := by
  constructor
  · rfl
  · intro h
    rw [show calcValue (parseBlock "N7 G1 X2.0 Y2.0 F3000.0"
        (some ⟨.sumMod256, 0⟩) none) = some 181 from rfl] at h
    simp at h

/-- C7: `ToLine` is the single-space join of the optional line number, the
optional command and the parameters in order; `ToLineWithCheck` extends it
by the stored checksum with the same separator; `ToLineWithCheckAndComments`
extends that by a nonempty comment with the same separator; `String` is an
alias of the last. -/
theorem serialization_join_rules (b : Block) :
    b.toLine = String.intercalate " "
      ((b.lineNumber.map Gcode.toString).toList ++
       (b.command.map Gcode.toString).toList ++
       b.parameters.map Gcode.toString)
  ∧ b.toLineWithCheck =
      (match b.checksum with
       | some c => b.toLine ++ " " ++ c.toString
       | none => b.toLine)
  ∧ b.toLineWithCheckAndComments =
      (if b.comment = "" then b.toLineWithCheck
       else b.toLineWithCheck ++ " " ++ b.comment)
  ∧ b.string = b.toLineWithCheckAndComments := by
  obtain ⟨ln, cmd, ps, chk, cm, he, fa⟩ := b
  refine ⟨?_, ?_, ?_, rfl⟩
  · cases ln <;> cases cmd <;> rfl
  · cases chk with
    | none => rfl
    | some c =>
      show String.intercalate " " [Block.toLine _, c.toString] = _
      rw [intercalate_pair]
  · by_cases hc : cm = ""
    · subst hc
      rfl
    · rw [if_neg hc]
      show (if cm.length > 0 then
          String.intercalate " " [Block.toLineWithCheck _, cm] else _) = _
      rw [if_pos (strLength_pos_of_ne cm hc), intercalate_pair]

/-- C6: with the engine and the default factory present, `VerifyChecksum`
returns an error exactly when no checksum is stored and never panics; when
a checksum is stored it recomputes via `CalculateChecksum` and returns the
word-and-address comparison against the stored checksum, leaving the
stored checksum field unchanged. -/
theorem verify_checksum_error_iff_no_checksum (b : Block) (e : Engine)
    (he : b.hashEngine = some e) (hf : b.factory = some defaultGcodeFactory) :
    ((∃ er, b.verifyChecksum = Res.err er) ↔ b.checksum = none)
  ∧ b.verifyChecksum ≠ Res.panic
  ∧ ∀ stored, b.checksum = some stored →
      ∃ g b1, b.calculateChecksum = Res.ok (g, b1) ∧
        b.verifyChecksum = Res.ok (stored.compare g, b1) ∧
        b1.checksum = b.checksum := by
  have hcalc : b.calculateChecksum =
      Res.ok (⟨'*', some (.uint32 ((e.reset.writeStr b.toLine).digestFirstByte))⟩,
        { b with hashEngine := some (e.reset.writeStr b.toLine) }) := by
    rw [calc_eq b e defaultGcodeFactory he hf, newUint32_star]
  cases hc : b.checksum with
  | none =>
    refine ⟨⟨fun _ => rfl, fun _ => ?_⟩, ?_, ?_⟩
    · exact ⟨Err.checksumMissing, by simp [Block.verifyChecksum, hc]⟩
    · simp [Block.verifyChecksum, hc]
    · intro stored hst
      exact Option.noConfusion hst
  | some stored =>
    have hver : b.verifyChecksum =
        Res.ok (stored.compare
          ⟨'*', some (.uint32 ((e.reset.writeStr b.toLine).digestFirstByte))⟩,
          { b with hashEngine := some (e.reset.writeStr b.toLine) }) := by
      unfold Block.verifyChecksum
      rw [hc, hcalc, hc]
    refine ⟨⟨fun hex => ?_, fun hn => ?_⟩, ?_, ?_⟩
    · obtain ⟨er, her⟩ := hex
      rw [hver] at her
      cases her
    · cases hn
    · rw [hver]
      intro hp
      cases hp
    · intro st hst
      injection hst with hst
      subst hst
      exact ⟨_, _, hcalc, hver, hc⟩

/-- C6 witness: the theorem instantiated on `sampleBlock`, whose checksum
`*85` is stored: verification recomputes and compares without touching the
stored checksum. -/
theorem verify_checksum_error_iff_no_checksum_witness :
    ∃ g b1, sampleBlock.calculateChecksum = Res.ok (g, b1) ∧
      sampleBlock.verifyChecksum =
        Res.ok (Gcode.compare ⟨'*', some (.uint32 85)⟩ g, b1) ∧
      b1.checksum = sampleBlock.checksum :=
  (verify_checksum_error_iff_no_checksum sampleBlock ⟨.xorBytes, 0⟩ rfl
    rfl).2.2 ⟨'*', some (.uint32 85)⟩ rfl

/-- Inversion of a successful `calculateChecksum`: it exposes the engine,
the factory, the factory call on the first digest byte of the freshly
written canonical line, and the returned block. -/
theorem calc_okE (b : Block) (g : Gcode) (b1 : Block)
    (h : b.calculateChecksum = Res.ok (g, b1)) :
    ∃ e f, b.hashEngine = some e ∧ b.factory = some f ∧
      f.newUint32 '*' ((e.reset.writeStr b.toLine).digestFirstByte) =
        Except.ok g ∧
      b1 = { b with hashEngine := some (e.reset.writeStr b.toLine) } := by
  cases he : b.hashEngine with
  | none =>
    rw [show b.calculateChecksum = Res.panic by
      unfold Block.calculateChecksum
      rw [he]] at h
    cases h
  | some e =>
    cases hf : b.factory with
    | none =>
      rw [show b.calculateChecksum = Res.panic by
        unfold Block.calculateChecksum
        rw [he, hf]] at h
      cases h
    | some f =>
      rw [calc_eq b e f he hf] at h
      cases hg : f.newUint32 '*'
          ((e.reset.writeStr b.toLine).digestFirstByte) with
      | error er =>
        rw [hg] at h
        cases h
      | ok g0 =>
        rw [hg] at h
        injection h with h
        injection h with hg0 hb1
        rw [hf] at hb1
        exact ⟨e, f, rfl, rfl, hg0 ▸ hg, hb1.symm⟩

/-- Inversion of a successful `updateChecksum`: it is a successful
`calculateChecksum` whose result overwrites the stored checksum. -/
theorem update_okE (b : Block) (b1 : Block)
    (h : b.updateChecksum = Res.ok b1) :
    ∃ g bc, b.calculateChecksum = Res.ok (g, bc) ∧
      b1 = { bc with checksum := some g } := by
  unfold Block.updateChecksum at h
  cases hc : b.calculateChecksum with
  | ok p =>
    obtain ⟨g, bc⟩ := p
    rw [hc] at h
    injection h with h
    exact ⟨g, bc, rfl, h.symm⟩
  | err e =>
    rw [hc] at h
    cases h
  | panic =>
    rw [hc] at h
    cases h

/-- C9: checksum computation is deterministic and checksum update is
idempotent — a second `CalculateChecksum` on the block returned by the
first yields the same checksum gcode, and a second `UpdateChecksum`
leaves the stored checksum equal to what the first stored. -/
theorem checksum_deterministic_and_idempotent (b : Block) :
    (∀ g1 b1 g2 b2, b.calculateChecksum = Res.ok (g1, b1) →
        b1.calculateChecksum = Res.ok (g2, b2) → g1 = g2)
  ∧ (∀ b1 b2, b.updateChecksum = Res.ok b1 → b1.updateChecksum = Res.ok b2 →
        b1.checksum = b2.checksum) := by
  constructor
  · intro g1 b1 g2 b2 h1 h2
    obtain ⟨e, f, he, hf, hg, hb1⟩ := calc_okE b g1 b1 h1
    subst hb1
    obtain ⟨e2, f2, he2, hf2, hg2, hb2⟩ := calc_okE _ g2 b2 h2
    have hE : e.reset.writeStr b.toLine = e2 := by
      injection (he2 : some (e.reset.writeStr b.toLine) = some e2)
    subst hE
    have hF : f = f2 := by
      injection (hf.symm.trans hf2 : some f = some f2)
    subst hF
    have hok : Except.ok (ε := Err) g1 = Except.ok g2 := hg.symm.trans hg2
    injection hok
  · intro b1 b2 h1 h2
    obtain ⟨g, bc, hcalc1, hb1⟩ := update_okE b b1 h1
    obtain ⟨e, f, he, hf, hg, hbc⟩ := calc_okE b g bc hcalc1
    subst hbc
    subst hb1
    obtain ⟨g2, bc2, hcalc2, hb2⟩ := update_okE _ b2 h2
    obtain ⟨e2, f2, he2, hf2, hg2, hbc2⟩ := calc_okE _ g2 bc2 hcalc2
    subst hbc2
    subst hb2
    have hE : e.reset.writeStr b.toLine = e2 := by
      injection (he2 : some (e.reset.writeStr b.toLine) = some e2)
    subst hE
    have hF : f = f2 := by
      injection (hf.symm.trans hf2 : some f = some f2)
    subst hF
    have hok : Except.ok (ε := Err) g = Except.ok g2 := hg.symm.trans hg2
    have hgg : g = g2 := by injection hok
    subst hgg
    rfl

/-- C9 witness: on `sampleBlock` (line `G1`, XOR engine) the first update
stores digest 118 and the second update stores the same checksum. -/
theorem checksum_deterministic_and_idempotent_witness :
    sampleBlock.updateChecksum = Res.ok sampleBlockUpd ∧
    sampleBlockUpd.updateChecksum = Res.ok sampleBlockUpd ∧
    sampleBlockUpd.checksum = sampleBlockUpd.checksum :=
  ⟨rfl, rfl,
    (checksum_deterministic_and_idempotent sampleBlock).2
      sampleBlockUpd sampleBlockUpd rfl rfl⟩

/-- C8: a first token keyed `N` carrying an in-range int32 value is
consumed as the line number with the signed value re-wrapped unsigned —
a negative value `v` is silently stored as `2 ^ 32 + v` — and the next
token becomes the command; a first token not keyed `N` is itself the
command.  The concrete parse of `"N-5 G1 X2"` stores 4294967291. -/
theorem lineNumber_signed_rewrap :
    (∀ (v : Int) (g : Gcode) (rest : List Gcode) (e : Option Engine),
        -2147483648 ≤ v → v ≤ 2147483647 →
        classify (⟨'N', some (.int32 v)⟩ :: g :: rest) e defaultGcodeFactory =
          Res.ok
            { lineNumber :=
                some ⟨'N', some (.uint32 ((if v < 0 then v + 4294967296 else v).toNat))⟩,
              command := some g,
              parameters := rest,
              checksum := none,
              comment := "",
              hashEngine := e,
              factory := some defaultGcodeFactory })
  ∧ (∀ (g : Gcode) (rest : List Gcode) (e : Option Engine)
        (f : GcoderFactory), g.word ≠ 'N' →
        classify (g :: rest) e f =
          Res.ok
            { lineNumber := none,
              command := some g,
              parameters := rest,
              checksum := none,
              comment := "",
              hashEngine := e,
              factory := some f })
  ∧ (resBlock (parseBlock "N-5 G1 X2" none none)).map
      (fun b => (b.lineNumber, b.command, b.parameters)) =
      some (some ⟨'N', some (.uint32 4294967291)⟩,
        some ⟨'G', some (.int32 1)⟩, [⟨'X', some (.int32 2)⟩]) := by
  refine ⟨?_, ?_, rfl⟩
  · intro v g rest e h1 h2
    show Res.ok _ = _
    rw [newUint32_N, uint32OfInt32_eq v h1 h2]
  · intro g rest e f hg
    cases rest with
    | nil =>
      show (if g.word = 'N' then _ else _) = _
      rw [if_neg hg]
    | cons g2 rest2 =>
      show (if g.word = 'N' then _ else _) = _
      rw [if_neg hg]

/-- C8 witness: classification of the token list of `"N-5 G1"` stores the
wrapped line number 4294967291 = 2 ^ 32 - 5. -/
theorem lineNumber_signed_rewrap_witness :
    classify [⟨'N', some (.int32 (-5))⟩, ⟨'G', some (.int32 1)⟩] none
        defaultGcodeFactory =
      Res.ok
        { lineNumber := some ⟨'N', some (.uint32 4294967291)⟩,
          command := some ⟨'G', some (.int32 1)⟩,
          parameters := [],
          checksum := none,
          comment := "",
          hashEngine := none,
          factory := some defaultGcodeFactory } := by
  have h := lineNumber_signed_rewrap.1 (-5) ⟨'G', some (.int32 1)⟩ [] none
    (by decide) (by decide)
  exact h

/-- On a leading digit the sign splitter consumes nothing. -/
theorem splitSign_of_digit (c : Char) (r : List Char) (hc : c.isDigit = true) :
    splitSign (c :: r) = (1, c :: r) := by
  have hcp : ¬ c = '+' := fun h => by
    subst h
    exact absurd hc (by decide)
  have hcm : ¬ c = '-' := fun h => by
    subst h
    exact absurd hc (by decide)
  show (if c = '+' then ((1 : Int), r)
        else if c = '-' then ((-1 : Int), r)
        else ((1 : Int), c :: r)) = ((1 : Int), c :: r)
  rw [if_neg hcp, if_neg hcm]

/-- The int32 parser accepts every bare digit string whose value fits. -/
theorem parseInt32_digits (s : String) (hne : s ≠ "")
    (hd : s.data.all Char.isDigit = true) (hr : decimalVal s ≤ 2147483647) :
    parseInt32 s = some ((decimalVal s : Int)) := by
  obtain ⟨l⟩ := s
  cases l with
  | nil => exact absurd rfl hne
  | cons c r =>
    have hd' : (c :: r).all Char.isDigit = true := hd
    have hca : c.isDigit = true ∧ r.all Char.isDigit = true := by
      simpa using hd'
    have hr' : (digitsNat (c :: r) : Int) ≤ 2147483647 := by
      exact_mod_cast hr
    have hlow : (-2147483648 : Int) ≤ (1 : Int) * digitsNat (c :: r) := by
      have : (0 : Int) ≤ (digitsNat (c :: r) : Int) := Int.natCast_nonneg _
      omega
    unfold parseInt32
    rw [splitSign_of_digit c r hca.1]
    simp only [List.cons_ne_nil, if_false, ite_false, hd', if_true, ite_true]
    rw [if_pos ⟨hlow, by simpa using hr'⟩]
    simp [decimalVal]

/-- C1: tokens with a nonempty remainder are type-sniffed with the
precedence int32, then float32, then the quoted-string grammar, the first
success winning; a bare in-range digit string such as `3` therefore always
becomes an int32 address, never a string; a token with an empty remainder
becomes an unaddressable gcode. -/
theorem address_sniff_precedence :
    (∀ (f : GcoderFactory) (w : Char) (s : String) (v : Int), s ≠ "" →
        parseInt32 s = some v → parseToken f w s = f.newInt32 w v)
  ∧ (∀ (f : GcoderFactory) (w : Char) (s : String) (q : DecFloat), s ≠ "" →
        parseInt32 s = none → parseFloat32 s = some q →
        parseToken f w s = f.newFloat32 w q)
  ∧ (∀ (f : GcoderFactory) (w : Char) (s : String), s ≠ "" →
        parseInt32 s = none → parseFloat32 s = none →
        parseToken f w s = f.newString w s)
  ∧ (∀ (w : Char) (s : String), s ≠ "" → s.data.all Char.isDigit = true →
        decimalVal s ≤ 2147483647 → wordValid w = true →
        parseToken defaultGcodeFactory w s =
          Except.ok ⟨w, some (.int32 ((decimalVal s : Int)))⟩)
  ∧ (∀ (f : GcoderFactory) (w : Char),
        parseToken f w "" = f.newUnaddressable w) := by
  refine ⟨?_, ?_, ?_, ?_, ?_⟩
  · intro f w s v hne hint
    unfold parseToken
    rw [if_pos (strLength_pos_of_ne s hne), hint]
  · intro f w s q hne hint hfl
    unfold parseToken
    rw [if_pos (strLength_pos_of_ne s hne), hint, hfl]
  · intro f w s hne hint hfl
    unfold parseToken
    rw [if_pos (strLength_pos_of_ne s hne), hint, hfl]
  · intro w s hne hd hr hw
    unfold parseToken
    rw [if_pos (strLength_pos_of_ne s hne), parseInt32_digits s hne hd hr]
    simp only [defaultGcodeFactory]
    rw [if_pos hw]
  · intro f w
    unfold parseToken
    rw [if_neg (by decide : ¬ ("" : String).length > 0)]

/-- C1 witness: the token `X3` sniffs to the int32 address 3, not to a
string. -/
theorem address_sniff_precedence_witness :
    parseToken defaultGcodeFactory 'X' "3" =
      Except.ok ⟨'X', some (.int32 3)⟩ := by
  have h := address_sniff_precedence.2.2.2.1 'X' "3" (by decide) (by decide)
    (by decide) (by decide)
  exact h

/-- A successful builder action never changes the command field. -/
theorem applyOption_command (b0 b1 : Block) (o : BlockOption)
    (h : applyOption b0 o = Except.ok b1) : b1.command = b0.command := by
  cases o with
  | setLineNumber g =>
    cases g with
    | none => exact absurd h (by simp [applyOption])
    | some x =>
      simp only [applyOption] at h
      injection h with h
      subst h
      rfl
  | setParameters ps =>
    cases ps with
    | none => exact absurd h (by simp [applyOption])
    | some x =>
      simp only [applyOption] at h
      injection h with h
      subst h
      rfl
  | setChecksum g =>
    cases g with
    | none => exact absurd h (by simp [applyOption])
    | some x =>
      simp only [applyOption] at h
      injection h with h
      subst h
      rfl
  | setComment s =>
    simp only [applyOption] at h
    injection h with h
    subst h
    rfl
  | setHash e =>
    cases e with
    | none => exact absurd h (by simp [applyOption])
    | some x =>
      simp only [applyOption] at h
      injection h with h
      subst h
      rfl
  | setFactory f =>
    cases f with
    | none => exact absurd h (by simp [applyOption])
    | some x =>
      simp only [applyOption] at h
      injection h with h
      subst h
      rfl

/-- A successful run of the staged builder actions preserves the command
of the initial block. -/
theorem foldl_options_command (opts : List BlockOption) :
    ∀ (b0 b : Block), List.foldlM applyOption b0 opts = Except.ok b →
      b.command = b0.command := by
  induction opts with
  | nil =>
    intro b0 b h
    injection h with h
    subst h
    rfl
  | cons o os ih =>
    intro b0 b h
    rw [List.foldlM_cons] at h
    cases ho : applyOption b0 o with
    | error er =>
      rw [ho] at h
      cases h
    | ok b1 =>
      rw [ho] at h
      have h' : List.foldlM applyOption b1 os = Except.ok b := by
        simpa using h
      exact (ih b1 b h').trans (applyOption_command b0 b1 o ho)

/-- The only successful classification with a nil command is the lone
line-number token, where the line number is set and the parameters and
checksum are empty. -/
theorem classify_command_none (gcodes : List Gcode) (e : Option Engine)
    (b : Block) (h : classify gcodes e defaultGcodeFactory = Res.ok b)
    (hcmd : b.command = none) :
    b.lineNumber.isSome ∧ b.parameters = [] ∧ b.checksum = none := by
  cases gcodes with
  | nil => exact Res.noConfusion (h : Res.panic = Res.ok b)
  | cons g rest =>
    cases rest with
    | nil =>
      simp only [classify] at h
      split at h
      · split at h
        · injection h with h
          subst h
          refine ⟨?_, rfl, rfl⟩
          show (match defaultGcodeFactory.newUint32 'N' _ with
                | .ok x => some x
                | .error _ => none).isSome = true
          rw [newUint32_N]
          rfl
        · cases h
      · injection h with h
        subst h
        exact Option.noConfusion hcmd
    | cons g2 rest2 =>
      simp only [classify] at h
      split at h
      · split at h
        · injection h with h
          subst h
          exact Option.noConfusion hcmd
        · cases h
      · injection h with h
        subst h
        exact Option.noConfusion hcmd

/-- C4 amended: `New` rejects an absent command and otherwise returns a
block carrying exactly the given command; `Parse` with the default factory
returns a block with a nil command only for a line consisting of a single
line-number token, in which case the line number is set and the parameters
and checksum are empty. -/
theorem block_command_presence :
    (∀ opts, New none opts = Except.error Err.commandRequired)
  ∧ (∀ cmd opts b, New (some cmd) opts = Except.ok b → b.command = some cmd)
  ∧ (∀ s e b, parseBlock s e none = Res.ok b → b.command = none →
      b.lineNumber.isSome ∧ b.parameters = [] ∧ b.checksum = none) := by
  refine ⟨fun opts => rfl, ?_, ?_⟩
  · intro cmd opts b h
    have h' : List.foldlM applyOption
        { lineNumber := none, command := some cmd, parameters := [],
          checksum := none, comment := "", hashEngine := none,
          factory := none } opts = Except.ok b := h
    exact foldl_options_command opts _ b h'
  · intro s e b h hcmd
    simp only [parseBlock, Option.getD_none] at h
    cases hloop : parseLoop defaultGcodeFactory
        (prepareSourceToParse s).data [] with
    | error er =>
      rw [hloop] at h
      cases h
    | ok gcodes =>
      rw [hloop] at h
      exact classify_command_none gcodes e b h hcmd

/-- C4 witness: the theorem instantiated on the builder without a command
and on the parsed line `"N4"`, whose block `blockN4` has a nil command but
a set line number. -/
theorem block_command_presence_witness :
    New none [] = Except.error Err.commandRequired ∧
    (blockN4.lineNumber.isSome ∧ blockN4.parameters = [] ∧
      blockN4.checksum = none) :=
  ⟨block_command_presence.1 [],
    block_command_presence.2.2 "N4" none blockN4 rfl rfl⟩

/-- C2 amended: `CalculateChecksum` resets the engine, feeds it exactly
the bytes of `ToLine` — the stored checksum and the comment never enter
the digest, since `ToLine` ignores both fields — takes the first digest
byte and wraps it as an unsigned asterisk-keyed gcode; the repository's
reference engine is XOR-of-bytes (its own test vector demands it), and on
the block parsed from `"N7 G1 X2.0 Y2.0 F3000.0"` it yields checksum
value 85 (a sum-of-bytes-mod-256 engine would yield 181 instead). -/
theorem checksum_mechanism_and_vector :
    (∀ (b : Block) (c : Option Gcode) (m : String),
        Block.toLine { b with checksum := c, comment := m } = b.toLine)
  ∧ (∀ (b : Block) (e : Engine), b.hashEngine = some e →
      b.factory = some defaultGcodeFactory →
      b.calculateChecksum =
        Res.ok
          (⟨'*', some (.uint32 ((e.reset.writeStr b.toLine).digestFirstByte))⟩,
            { b with hashEngine := some (e.reset.writeStr b.toLine) }))
  ∧ calcValue (parseBlock "N7 G1 X2.0 Y2.0 F3000.0"
      (some ⟨.xorBytes, 0⟩) none) = some 85 := by
  refine ⟨fun b c m => rfl, ?_, rfl⟩
  intro b e he hf
  rw [calc_eq b e defaultGcodeFactory he hf, newUint32_star]

/-- C2 witness: the mechanism instantiated on `sampleBlock`, whose line
`G1` digests to 118 under the XOR engine. -/
theorem checksum_mechanism_and_vector_witness :
    sampleBlock.calculateChecksum =
      Res.ok (⟨'*', some (.uint32 118)⟩,
        { sampleBlock with hashEngine := some ⟨.xorBytes, 118⟩ }) := by
  have h := checksum_mechanism_and_vector.2.1 sampleBlock ⟨.xorBytes, 0⟩
    rfl rfl
  exact h
